import Mathlib

/-!
Shallow embedding of the `useAutocomplete` hook of the react-autocomplete
repository (`src/useAutocomplete.ts`, given here as `src/unnamed/part_000`,
lines 119-306) together with the constants module (`src/constants.ts`,
`src/unnamed/part_003`).

Modelling choices:
* The seven React state cells (`input`, `query`, `suggestions`, `loading`,
  `error`, `highlight`, `noResults`) and the three refs (`debounceRef`,
  `abortRef`, `cacheRef`) become the fields of `HookState`.
* A JavaScript `AbortController` is identified by the natural number
  allocated for it at creation time (`nextCtrl` is the allocator);
  `abortedSet` records every controller on which `abort()` was called, so
  `c ∈ abortedSet` models `controller.signal.aborted = true`.
* The cache (`Map<string, T[]>`) becomes an association list in insertion
  order: `Map.set` overwrites in place for a present key and appends for a
  fresh key; `keys().next()` is the head of the list.
* Each synchronous segment of the hook (the code between `await` points) is
  one Lean function; the retry `for` loop is in addition given as a whole
  (`runAttempts`) driven by an environment describing the outcome of each
  `await fetchFn(...)` call and the aborted flag observed right after it.
* Suggestion items are specialized to `String` (the hook's default `T`).
-/

/-- DEFAULT_CONFIG.DEBOUNCE_MS (constants.ts line 5). -/
def DEBOUNCE_MS : Nat := 300

/-- DEFAULT_CONFIG.MIN_CHARS (constants.ts line 6). -/
def MIN_CHARS : Nat := 1

/-- DEFAULT_CONFIG.MAX_CACHE_SIZE (constants.ts line 7). -/
def MAX_CACHE_SIZE : Nat := 50

/-- DEFAULT_CONFIG.RETRY_ATTEMPTS (constants.ts line 8). -/
def RETRY_ATTEMPTS : Nat := 2

/-- DEFAULT_CONFIG.BACKOFF_BASE_MS (constants.ts line 9). -/
def BACKOFF_BASE_MS : Nat := 150

/-- The field names of `UseAutocompleteParams` (useAutocomplete.ts lines
122-128): the whole caller-settable configuration surface of the hook. -/
def recognizedOptions : List String :=
  ["fetchFn", "selectionFn", "debounceMs", "minChars", "maxCache"]

/-- The value an `await fetchFn(...)` / `await selectionFn(...)` call can
resolve with: either a proper array of strings or some non-array value
(the code guards with `Array.isArray`). -/
inductive FetchVal where
  | arr (l : List String)
  | nonArray
deriving DecidableEq

/-- `Array.isArray(data) ? data : []` (lines 221 and 289). -/
def coerceData : FetchVal → List String
  | FetchVal.arr l => l
  | FetchVal.nonArray => []

/-- The state of one `useAutocomplete` instance: the React state cells
(lines 159-165) plus the refs (lines 167-169).  `pendingTimer` holds the
trimmed query captured by an armed debounce timer (`debounceRef`);
`abortRef` holds the id of the controller stored in `abortRef.current`;
`abortedSet` lists the controllers whose `abort()` has been called;
`nextCtrl` allocates fresh controller ids. -/
structure HookState where
  input : String
  query : String
  suggestions : List String
  loading : Bool
  error : Option String
  highlight : Int
  noResults : Bool
  cache : List (String × List String)
  pendingTimer : Option String
  abortRef : Option Nat
  abortedSet : List Nat
  nextCtrl : Nat
deriving DecidableEq

/-- The initial values passed to `useState` (lines 159-165) with empty refs. -/
def initialState : HookState :=
  { input := "", query := "", suggestions := [], loading := false,
    error := none, highlight := -1, noResults := false, cache := [],
    pendingTimer := none, abortRef := none, abortedSet := [], nextCtrl := 0 }

/-- Model of JavaScript `String.prototype.trim()` (used at line 198): drop
whitespace from both ends.  Written structurally over the character list
so that concrete traces evaluate inside the kernel (`String.trim` itself
is defined by well-founded recursion). -/
def jsTrim (s : String) : String :=
  String.mk
    (((s.data.dropWhile Char.isWhitespace).reverse.dropWhile
        Char.isWhitespace).reverse)

/-- Model of JavaScript `String.prototype.toLowerCase()` (used at line 201
to normalize cache keys). -/
def jsToLower (s : String) : String :=
  String.mk (s.data.map Char.toLower)

/-- `cacheRef.current.get(key)` (and `has`, via `isSome`). -/
def cacheGet (cache : List (String × List String)) (k : String) :
    Option (List String) :=
  (cache.find? (fun e => e.1 == k)).map (fun e => e.2)

/-- `cacheRef.current.set(key, arr)` (line 222): a JavaScript `Map.set`
overwrites in place when the key is present and appends otherwise. -/
def mapSet (cache : List (String × List String)) (k : String)
    (v : List String) : List (String × List String) :=
  if cache.any (fun e => e.1 == k) then
    cache.map (fun e => if e.1 == k then (k, v) else e)
  else cache ++ [(k, v)]

/-- The cache write with eviction (lines 222-228): `set`, then if the size
exceeds `maxCache`, delete the first (oldest-inserted) key. -/
def cachePut (maxCache : Nat) (cache : List (String × List String))
    (k : String) (v : List String) : List (String × List String) :=
  let c := mapSet cache k v
  if maxCache < c.length then c.drop 1 else c

/-- `updateInput` (lines 181-192). -/
def updateInput (minChars : Nat) (s : HookState) (val : String) : HookState :=
  let s1 := { s with input := val, highlight := -1 }
  if minChars ≤ val.length then { s1 with query := val }
  else { s1 with query := "", suggestions := [], noResults := false,
                 error := none }

/-- Lines 195-196 of the query effect: clear the pending debounce timer and
abort the controller currently held in `abortRef` (the ref itself keeps
pointing at the now-dead controller, as in the source). -/
def abortCurrent (s : HookState) : HookState :=
  { s with
      pendingTimer := none,
      abortedSet :=
        match s.abortRef with
        | some c => c :: s.abortedSet
        | none => s.abortedSet }

/-- The synchronous part of the query `useEffect` body (lines 194-209), run
when `query` changes: clear timer and abort (lines 195-196), stop on an
empty trimmed query (lines 198-199), serve a cache hit synchronously
(lines 201-207), otherwise arm the debounce timer with the trimmed query
(line 209). -/
def effectRun (s : HookState) : HookState :=
  let s1 := abortCurrent s
  let q := jsTrim s.query
  if q = "" then s1
  else
    match cacheGet s1.cache (jsToLower q) with
    | some data => { s1 with suggestions := data, noResults := data.isEmpty }
    | none => { s1 with pendingTimer := some q }

/-- The debounce timer firing (lines 209-216): set `loading`, clear
`error`/`noResults`, create a fresh controller and store it in `abortRef`
(the previous controller is NOT aborted here).  Returns the new
controller id and the captured trimmed query of the fetch that is now in
flight, or `none` if no timer was armed. -/
def debounceFire (s : HookState) : HookState × Option (Nat × String) :=
  match s.pendingTimer with
  | none => (s, none)
  | some q =>
    let c := s.nextCtrl
    ({ s with pendingTimer := none, loading := true, error := none,
              noResults := false, nextCtrl := c + 1, abortRef := some c },
     some (c, q))

/-- The state mutation of a successful attempt (lines 221-231): coerce the
payload, write through to the cache (with eviction), publish suggestions,
derive `noResults`, clear `loading`. -/
def successState (maxCache : Nat) (q : String) (v : FetchVal)
    (s : HookState) : HookState :=
  { s with
      cache := cachePut maxCache s.cache (jsToLower q) (coerceData v),
      suggestions := coerceData v,
      noResults := (coerceData v).isEmpty,
      loading := false }

/-- The state mutation of the terminal failure branch (lines 236-238). -/
def failState (s : HookState) : HookState :=
  { s with error := some "Failed to fetch", suggestions := [],
           loading := false }

/-- Resolution of one in-flight `await fetchFn(q, ...)` that resolved
successfully, observed at the current state (lines 219-232): if the
attempt's own controller has been aborted in the meantime, return without
touching anything (line 220); otherwise perform the success mutation. -/
def fetchSuccess (maxCache : Nat) (s : HookState) (c : Nat) (q : String)
    (v : FetchVal) : HookState :=
  if c ∈ s.abortedSet then s else successState maxCache q v s

/-- Resolution of one in-flight `await fetchFn(q, ...)` that rejected,
observed at the current state (lines 233-242): a dead controller is a
silent no-op (line 234); the final attempt surfaces the generic error
(lines 235-239); an earlier attempt leaves the state untouched and the
loop backs off and retries. -/
def fetchFailure (s : HookState) (c : Nat) (attempt maxAttempts : Nat) :
    HookState :=
  if c ∈ s.abortedSet then s
  else if attempt = maxAttempts - 1 then failState s
  else s

/-- Outcome of one `await selectionFn(value, ...)`. -/
inductive SelOutcome where
  | resolves (v : FetchVal)
  | rejects
deriving DecidableEq

/-- The synchronous prefix of `handleSelection` (lines 275-283): without a
configured `selectionFn` nothing at all happens; otherwise set `loading`,
clear `error`/`noResults`, create a fresh controller and store it in
`abortRef` (the previous controller is NOT aborted).  Returns the new
controller id when a selection fetch is now in flight. -/
def handleSelectionStart (hasSelectionFn : Bool) (s : HookState) :
    HookState × Option Nat :=
  if hasSelectionFn then
    let c := s.nextCtrl
    ({ s with loading := true, error := none, noResults := false,
              nextCtrl := c + 1, abortRef := some c },
     some c)
  else (s, none)

/-- Resolution of the in-flight selection fetch, observed at the current
state (lines 285-299): a dead controller is a silent no-op; success
replaces the suggestions (coercing a non-array payload), derives
`noResults`, clears `loading` and resets `highlight`; failure surfaces
the distinct selection error, clears suggestions and `loading`. -/
def selectionResolve (s : HookState) (c : Nat) (out : SelOutcome) :
    HookState :=
  match out with
  | SelOutcome.resolves v =>
    if c ∈ s.abortedSet then s
    else
      { s with suggestions := coerceData v,
               noResults := (coerceData v).isEmpty,
               loading := false, highlight := -1 }
  | SelOutcome.rejects =>
    if c ∈ s.abortedSet then s
    else
      { s with error := some "Failed to fetch related suggestions",
               suggestions := [], loading := false }

/-- `moveHighlight` (lines 260-268): `prev` is the current highlight, the
two `if`s reset an out-of-range sum to the corresponding end. -/
def moveHighlight (suggestions : List String) (prev delta : Int) : Int :=
  if suggestions.length = 0 then -1
  else
    let next := prev + delta
    let next := if next < 0 then (suggestions.length : Int) - 1 else next
    if (suggestions.length : Int) ≤ next then 0 else next

/-- What one `await fetchFn(...)` inside the retry loop does, together with
the value of `controller.signal.aborted` observed right after it. -/
inductive AttemptOutcome where
  | resolves (v : FetchVal) (abortedAfter : Bool)
  | rejects (abortedAfter : Bool)
deriving DecidableEq

/-- Result of running the retry loop: final state, the list of backoff
waits performed (in ms, in order), and the number of `fetchFn` calls. -/
structure LoopResult where
  state : HookState
  waits : List Nat
  calls : Nat
deriving DecidableEq

/-- The retry `for` loop (lines 217-243) as a whole, driven by `env`
describing each attempt: `fuel` is the number of loop iterations still
allowed (`maxAttempts - attempt`), `ws` accumulates the backoff waits and
`n` counts the `fetchFn` calls made so far. -/
def runAttempts (maxAttempts backoffBase maxCache : Nat)
    (env : Nat → AttemptOutcome) (q : String) :
    Nat → Nat → HookState → List Nat → Nat → LoopResult
  | 0, _, s, ws, n => ⟨s, ws, n⟩
  | fuel + 1, attempt, s, ws, n =>
    match env attempt with
    | AttemptOutcome.resolves v ab =>
      if ab then ⟨s, ws, n + 1⟩
      else ⟨successState maxCache q v s, ws, n + 1⟩
    | AttemptOutcome.rejects ab =>
      if ab then ⟨s, ws, n + 1⟩
      else if attempt = maxAttempts - 1 then ⟨failState s, ws, n + 1⟩
      else
        runAttempts maxAttempts backoffBase maxCache env q fuel
          (attempt + 1) s (ws ++ [backoffBase * (attempt + 1)]) (n + 1)

/-- The whole attempt loop from `attempt = 0` (line 217). -/
def runFetchLoop (maxAttempts backoffBase maxCache : Nat)
    (env : Nat → AttemptOutcome) (q : String) (s : HookState) : LoopResult :=
  runAttempts maxAttempts backoffBase maxCache env q maxAttempts 0 s [] 0

/-- The debounce callback as the hook actually runs it (lines 209-243):
the loop bound and backoff base are the hard-coded constants
`DEFAULT_CONFIG.RETRY_ATTEMPTS` and `DEFAULT_CONFIG.BACKOFF_BASE_MS`
(lines 215-216), not caller-settable options. -/
def hookDebounceFire (maxCache : Nat) (env : Nat → AttemptOutcome)
    (s : HookState) : LoopResult :=
  match s.pendingTimer with
  | none => ⟨s, [], 0⟩
  | some q =>
    let c := s.nextCtrl
    runFetchLoop RETRY_ATTEMPTS BACKOFF_BASE_MS maxCache env q
      { s with pendingTimer := none, loading := true, error := none,
               noResults := false, nextCtrl := c + 1, abortRef := some c }

/-! ### Helper lemmas -/

@[simp] lemma abortCurrent_cache (s : HookState) :
    (abortCurrent s).cache = s.cache := rfl

@[simp] lemma abortCurrent_suggestions (s : HookState) :
    (abortCurrent s).suggestions = s.suggestions := rfl

@[simp] lemma abortCurrent_loading (s : HookState) :
    (abortCurrent s).loading = s.loading := rfl

@[simp] lemma abortCurrent_error (s : HookState) :
    (abortCurrent s).error = s.error := rfl

@[simp] lemma abortCurrent_highlight (s : HookState) :
    (abortCurrent s).highlight = s.highlight := rfl

@[simp] lemma abortCurrent_input (s : HookState) :
    (abortCurrent s).input = s.input := rfl

@[simp] lemma abortCurrent_query (s : HookState) :
    (abortCurrent s).query = s.query := rfl

@[simp] lemma abortCurrent_noResults (s : HookState) :
    (abortCurrent s).noResults = s.noResults := rfl

@[simp] lemma abortCurrent_nextCtrl (s : HookState) :
    (abortCurrent s).nextCtrl = s.nextCtrl := rfl

@[simp] lemma abortCurrent_pendingTimer (s : HookState) :
    (abortCurrent s).pendingTimer = none := rfl

@[simp] lemma abortCurrent_abortRef (s : HookState) :
    (abortCurrent s).abortRef = s.abortRef := rfl

lemma abortCurrent_abortedSet_of_some {s : HookState} {c : Nat}
    (h : s.abortRef = some c) :
    (abortCurrent s).abortedSet = c :: s.abortedSet := by
  unfold abortCurrent
  rw [h]

lemma updateInput_abortRef (minChars : Nat) (s : HookState) (val : String) :
    (updateInput minChars s val).abortRef = s.abortRef := by
  simp only [updateInput]
  split <;> rfl

lemma updateInput_of_ge {minChars : Nat} (s : HookState) {val : String}
    (h : minChars ≤ val.length) :
    updateInput minChars s val =
      { s with input := val, highlight := -1, query := val } := by
  simp only [updateInput]
  rw [if_pos h]

lemma effectRun_of_trim_empty {s : HookState} (h : jsTrim s.query = "") :
    effectRun s = abortCurrent s := by
  simp [effectRun, h]

lemma effectRun_of_hit {s : HookState} {data : List String}
    (h1 : ¬ jsTrim s.query = "")
    (h2 : cacheGet s.cache (jsToLower (jsTrim s.query)) = some data) :
    effectRun s =
      { abortCurrent s with suggestions := data,
                            noResults := data.isEmpty } := by
  simp [effectRun, h1, h2]

lemma effectRun_of_miss {s : HookState}
    (h1 : ¬ jsTrim s.query = "")
    (h2 : cacheGet s.cache (jsToLower (jsTrim s.query)) = none) :
    effectRun s =
      { abortCurrent s with pendingTimer := some (jsTrim s.query) } := by
  simp [effectRun, h1, h2]

lemma mem_abortedSet_effectRun {s : HookState} {c : Nat}
    (h : s.abortRef = some c) : c ∈ (effectRun s).abortedSet := by
  have hmem : c ∈ (abortCurrent s).abortedSet := by
    rw [abortCurrent_abortedSet_of_some h]
    exact List.mem_cons_self c s.abortedSet
  by_cases hq : jsTrim s.query = ""
  · rw [effectRun_of_trim_empty hq]
    exact hmem
  · cases h2 : cacheGet s.cache (jsToLower (jsTrim s.query)) with
    | some data => rw [effectRun_of_hit hq h2]; exact hmem
    | none => rw [effectRun_of_miss hq h2]; exact hmem

lemma fetchSuccess_of_aborted {maxCache : Nat} {s : HookState} {c : Nat}
    (q : String) (v : FetchVal) (h : c ∈ s.abortedSet) :
    fetchSuccess maxCache s c q v = s := by
  unfold fetchSuccess
  rw [if_pos h]

lemma fetchFailure_of_aborted {s : HookState} {c : Nat}
    (attempt maxAttempts : Nat) (h : c ∈ s.abortedSet) :
    fetchFailure s c attempt maxAttempts = s := by
  unfold fetchFailure
  rw [if_pos h]

lemma selectionResolve_of_aborted {s : HookState} {c : Nat}
    (out : SelOutcome) (h : c ∈ s.abortedSet) :
    selectionResolve s c out = s := by
  cases out <;> simp [selectionResolve, h]

lemma moveHighlight_eq (l : List String) (prev delta : Int) (hne : l ≠ []) :
    moveHighlight l prev delta =
      if prev + delta < 0 then (l.length : Int) - 1
      else if (l.length : Int) ≤ prev + delta then 0 else prev + delta := by
  have hlen0 : l.length ≠ 0 := fun h => hne (List.length_eq_zero.mp h)
  unfold moveHighlight
  rw [if_neg hlen0]
  show (if (l.length : Int) ≤
          (if prev + delta < 0 then (l.length : Int) - 1 else prev + delta)
        then 0
        else if prev + delta < 0 then (l.length : Int) - 1 else prev + delta)
      = _
  split_ifs <;> omega

lemma moveHighlight_single_step (l : List String) (prev : Int) (hne : l ≠ [])
    (h0 : 0 ≤ prev) (h1 : prev < (l.length : Int)) :
    moveHighlight l prev 1 = (prev + 1) % (l.length : Int) ∧
    moveHighlight l prev (-1) = (prev - 1) % (l.length : Int) := by
  have hlen0 : l.length ≠ 0 := fun h => hne (List.length_eq_zero.mp h)
  have hn : 1 ≤ (l.length : Int) := by
    have := Nat.one_le_iff_ne_zero.mpr hlen0
    exact_mod_cast this
  constructor
  · rw [moveHighlight_eq l prev 1 hne]
    by_cases h : prev + 1 < (l.length : Int)
    · rw [if_neg (by omega), if_neg (by omega),
          Int.emod_eq_of_lt (by omega) h]
    · have hp : prev + 1 = (l.length : Int) := by omega
      rw [if_neg (by omega), if_pos (by omega), hp, Int.emod_self]
  · rw [moveHighlight_eq l prev (-1) hne]
    by_cases h : prev = 0
    · subst h
      rw [if_pos (by omega)]
      have e1 := Int.add_mul_emod_self_left (-1) ((l.length : Int)) 1
      have e2 : (-1 : Int) + (l.length : Int) * 1 = (l.length : Int) - 1 := by
        ring
      calc (l.length : Int) - 1
          = ((l.length : Int) - 1) % (l.length : Int) :=
            (Int.emod_eq_of_lt (by omega) (by omega)).symm
        _ = ((-1 : Int) + (l.length : Int) * 1) % (l.length : Int) := by
            rw [e2]
        _ = (-1 : Int) % (l.length : Int) := e1
        _ = ((0 : Int) - 1) % (l.length : Int) := by norm_num
    · rw [if_neg (by omega), if_neg (by omega),
          Int.emod_eq_of_lt (by omega) (by omega)]
      omega

lemma runAttempts_callsLe (ma bb mc : Nat) (env : Nat → AttemptOutcome)
    (q : String) :
    ∀ (fuel attempt : Nat) (s : HookState) (ws : List Nat) (n : Nat),
      (runAttempts ma bb mc env q fuel attempt s ws n).calls ≤ n + fuel := by
  intro fuel
  induction fuel with
  | zero =>
    intro attempt s ws n
    simp [runAttempts]
  | succ f ih =>
    intro attempt s ws n
    rcases henv : env attempt with ⟨v, ab⟩ | ⟨ab⟩
    · cases ab <;> simp [runAttempts, henv]
    · cases ab
      · simp only [runAttempts, henv]
        rw [if_neg Bool.false_ne_true]
        by_cases hat : attempt = ma - 1
        · rw [if_pos hat]
          show n + 1 ≤ n + (f + 1)
          omega
        · rw [if_neg hat]
          have hrec := ih (attempt + 1) s (ws ++ [bb * (attempt + 1)]) (n + 1)
          omega
      · simp [runAttempts, henv]

lemma runAttempts_allFail (ma bb mc : Nat) (env : Nat → AttemptOutcome)
    (q : String) :
    ∀ (fuel attempt : Nat) (s : HookState) (ws : List Nat) (n : Nat),
      1 ≤ fuel → attempt + fuel = ma →
      (∀ i, attempt ≤ i → i < ma → env i = AttemptOutcome.rejects false) →
      runAttempts ma bb mc env q fuel attempt s ws n =
        ⟨failState s,
         ws ++ (List.range' attempt (fuel - 1)).map (fun i => bb * (i + 1)),
         n + fuel⟩ := by
  intro fuel
  induction fuel with
  | zero =>
    intro attempt s ws n h1
    exact absurd h1 (by omega)
  | succ f ih =>
    intro attempt s ws n h1 h2 henv
    have hA : env attempt = AttemptOutcome.rejects false :=
      henv attempt le_rfl (by omega)
    simp only [runAttempts, hA]
    rw [if_neg Bool.false_ne_true]
    cases f with
    | zero =>
      have hat : attempt = ma - 1 := by omega
      rw [if_pos hat]
      simp
    | succ f2 =>
      have hat : ¬ attempt = ma - 1 := by omega
      rw [if_neg hat]
      rw [ih (attempt + 1) s (ws ++ [bb * (attempt + 1)]) (n + 1) (by omega)
            (by omega) (fun i hi1 hi2 => henv i (by omega) hi2)]
      simp only [LoopResult.mk.injEq]
      refine ⟨trivial, ?_, by omega⟩
      rw [show f2 + 1 + 1 - 1 = f2 + 1 from rfl, List.range'_succ]
      simp [List.append_assoc]

/-- C6: the claim asserts that `moveHighlight(delta)` wraps `(h + delta)`
modulo `n` for arbitrary integer deltas.  Counterexample: with 3
suggestions, highlight 0 and delta -5 the code yields 2 (a single clamp
of a negative sum to `n - 1`), while `(0 + -5) mod 3 = 1`. -/
theorem moveHighlight_counterexample :
    moveHighlight ["a", "b", "c"] 0 (-5) = 2 ∧
    ((0 : Int) + (-5)) % (3 : Int) = 1 ∧
    moveHighlight ["a", "b", "c"] 0 (-5) ≠ ((0 : Int) + (-5)) % (3 : Int) := by
  decide

/-- C6 (amended): `moveHighlight(delta)` on an empty suggestion list yields
-1; on a non-empty list of length n it computes `prev + delta` and clamps
a below-0 sum to `n - 1` and an at-or-above-n sum to 0 (a single wrap,
not modulo arithmetic); this coincides with wrapping modulo n for the
single-step deltas +1 and -1 from any in-range highlight, and in particular
with n = 3 and highlight -1, delta -1 yields 2, and with highlight 2,
delta 1 yields 0. -/
theorem moveHighlight_clamp_spec (l : List String) (prev delta : Int) :
    (l = [] → moveHighlight l prev delta = -1) ∧
    (l ≠ [] →
      moveHighlight l prev delta =
        if prev + delta < 0 then (l.length : Int) - 1
        else if (l.length : Int) ≤ prev + delta then 0 else prev + delta) ∧
    (l ≠ [] → 0 ≤ prev → prev < (l.length : Int) →
      moveHighlight l prev 1 = (prev + 1) % (l.length : Int) ∧
      moveHighlight l prev (-1) = (prev - 1) % (l.length : Int)) ∧
    moveHighlight ["a", "b", "c"] (-1) (-1) = 2 ∧
    moveHighlight ["a", "b", "c"] 2 1 = 0 := by
  refine ⟨?_, ?_, ?_, by decide, by decide⟩
  · intro h
    subst h
    rfl
  · exact fun hne => moveHighlight_eq l prev delta hne
  · exact fun hne h0 h1 => moveHighlight_single_step l prev hne h0 h1

/-- Witness for the amended C6 theorem at the concrete list
`["a", "b", "c"]` and highlight 1. -/
theorem moveHighlight_clamp_witness :
    moveHighlight ["a", "b", "c"] 1 1 =
      ((1 : Int) + 1) % ((["a", "b", "c"].length : Int)) ∧
    moveHighlight ["a", "b", "c"] 1 (-1) =
      ((1 : Int) - 1) % ((["a", "b", "c"].length : Int)) :=
  (moveHighlight_clamp_spec ["a", "b", "c"] 1 0).2.2.1 (by decide) (by decide)
    (by decide)

/-- C8: the claim says `maxAttempts` and `backoffBaseMs` are caller-settable
options of the hook.  They are not: `UseAutocompleteParams` (lines
122-128) recognizes only `fetchFn`, `selectionFn`, `debounceMs`,
`minChars` and `maxCache`. -/
theorem retryOptions_counterexample :
    "maxAttempts" ∉ recognizedOptions ∧
    "backoffBaseMs" ∉ recognizedOptions := by
  decide

/-- C8 (amended): the recognized configuration surface is `fetchFn`,
`selectionFn`, `debounceMs` (default 300), `minChars` (default 1) and
`maxCache` (default 50); the retry policy of the primary fetch is fixed
by the hard-coded constants `DEFAULT_CONFIG.RETRY_ATTEMPTS = 2` and
`DEFAULT_CONFIG.BACKOFF_BASE_MS = 150` (lines 215-216), not by
caller-settable options, and the debounce callback never makes more than
`RETRY_ATTEMPTS` fetch calls. -/
theorem retryConfig_spec :
    recognizedOptions =
      ["fetchFn", "selectionFn", "debounceMs", "minChars", "maxCache"] ∧
    RETRY_ATTEMPTS = 2 ∧ BACKOFF_BASE_MS = 150 ∧ DEBOUNCE_MS = 300 ∧
    MIN_CHARS = 1 ∧ MAX_CACHE_SIZE = 50 ∧
    ∀ (maxCache : Nat) (env : Nat → AttemptOutcome) (s : HookState),
      (hookDebounceFire maxCache env s).calls ≤ RETRY_ATTEMPTS := by
  refine ⟨rfl, rfl, rfl, rfl, rfl, rfl, ?_⟩
  intro mc env s
  cases hp : s.pendingTimer with
  | none => simp [hookDebounceFire, hp]
  | some q =>
    simp only [hookDebounceFire, hp, runFetchLoop]
    exact le_trans (runAttempts_callsLe _ _ _ _ _ _ _ _ _ _) (by omega)

/-- C1 (counterexample): after `updateInput "foo"` the query effect arms the
timer, the timer fires and mints controller 0 for the fetch of "foo";
`handleSelection` then starts a new request (controller 1) but does not
abort controller 0, so the prior fetch resolving later still mutates the
shared suggestions and the cache. -/
theorem epochInvalidation_counterexample :
    (debounceFire (effectRun (updateInput 1 initialState "foo"))).1.abortRef
        = some 0 ∧
    (handleSelectionStart true
        (debounceFire (effectRun (updateInput 1 initialState "foo"))).1).2
        = some 1 ∧
    (handleSelectionStart true
        (debounceFire (effectRun (updateInput 1 initialState "foo"))).1).1.suggestions
        = [] ∧
    (fetchSuccess 50
        (handleSelectionStart true
          (debounceFire (effectRun (updateInput 1 initialState "foo"))).1).1
        0 "foo" (FetchVal.arr ["stale"])).suggestions = ["stale"] ∧
    (fetchSuccess 50
        (handleSelectionStart true
          (debounceFire (effectRun (updateInput 1 initialState "foo"))).1).1
        0 "foo" (FetchVal.arr ["stale"])).cache = [("foo", ["stale"])] := by
  decide

/-- C1 (amended): the query effect invalidates the prior request: whenever
it runs it aborts the controller held in `abortRef`, and a resolution
belonging to an aborted controller is the identity on the whole state
(so it can mutate neither the state fields nor the cache), for the retry
fetch (success and failure) and the selection fetch alike.
`handleSelection` and the debounce-fire callback, however, replace
`abortRef` with a fresh controller without aborting the previous one, so
a request still in flight at that moment keeps its ability to mutate the
shared state and the cache. -/
theorem epochInvalidation_spec (maxCache : Nat) :
    (∀ (s : HookState) (c : Nat), s.abortRef = some c →
      c ∈ (effectRun s).abortedSet) ∧
    (∀ (s : HookState) (c : Nat) (q : String) (v : FetchVal),
      c ∈ s.abortedSet → fetchSuccess maxCache s c q v = s) ∧
    (∀ (s : HookState) (c attempt ma : Nat),
      c ∈ s.abortedSet → fetchFailure s c attempt ma = s) ∧
    (∀ (s : HookState) (c : Nat) (out : SelOutcome),
      c ∈ s.abortedSet → selectionResolve s c out = s) ∧
    (∀ s : HookState,
      (handleSelectionStart true s).1.abortedSet = s.abortedSet) ∧
    (∀ s : HookState, (debounceFire s).1.abortedSet = s.abortedSet) := by
  refine ⟨?_, ?_, ?_, ?_, ?_, ?_⟩
  · exact fun s c h => mem_abortedSet_effectRun h
  · exact fun s c q v h => fetchSuccess_of_aborted q v h
  · exact fun s c a m h => fetchFailure_of_aborted a m h
  · exact fun s c out h => selectionResolve_of_aborted out h
  · exact fun s => rfl
  · intro s
    cases hp : s.pendingTimer <;> simp [debounceFire, hp]

/-- Witness for the amended C1 theorem on concrete states. -/
theorem epochInvalidation_witness :
    0 ∈ (effectRun { initialState with abortRef := some 0 }).abortedSet ∧
    fetchSuccess 50 { initialState with abortedSet := [0] } 0 "q"
        (FetchVal.arr ["x"]) = { initialState with abortedSet := [0] } := by
  refine ⟨?_, ?_⟩
  · exact (epochInvalidation_spec 50).1 { initialState with abortRef := some 0 }
      0 rfl
  · exact (epochInvalidation_spec 50).2.1 { initialState with abortedSet := [0] }
      0 "q" (FetchVal.arr ["x"]) (by decide)

/-- C2: if query Q1's debounced fetch is in flight (controller `c` was
minted when the timer fired) and `updateInput` switches the query to Q2
so that the query effect runs again, then a later successful resolution
of Q1's fetch is the identity on the state: suggestions, loading, error
and noResults are untouched, so the visible state reflects only Q2's
outcome. -/
theorem supersededFetch_noop (minChars maxCache : Nat) (s0 : HookState)
    (c : Nat) (q1 q2 : String) (v : FetchVal)
    (h : (debounceFire s0).2 = some (c, q1)) :
    fetchSuccess maxCache
        (effectRun (updateInput minChars (debounceFire s0).1 q2)) c q1 v
      = effectRun (updateInput minChars (debounceFire s0).1 q2) := by
  have habort : (debounceFire s0).1.abortRef = some c := by
    cases hp : s0.pendingTimer with
    | none => simp [debounceFire, hp] at h
    | some q =>
      simp only [debounceFire, hp] at h
      have hc : s0.nextCtrl = c := by
        injection h with h2
        exact congrArg Prod.fst h2
      simp only [debounceFire, hp]
      rw [hc]
  have h2 : (updateInput minChars (debounceFire s0).1 q2).abortRef = some c := by
    rw [updateInput_abortRef]
    exact habort
  exact fetchSuccess_of_aborted q1 v (mem_abortedSet_effectRun h2)

/-- Witness for C2 on a concrete trace: "foo" is fetched (controller 0),
the query switches to "bar", and the late resolution of "foo" changes
nothing. -/
theorem supersededFetch_noop_witness :
    fetchSuccess 50
        (effectRun (updateInput 1
          (debounceFire (effectRun (updateInput 1 initialState "foo"))).1 "bar"))
        0 "foo" (FetchVal.arr ["w"])
      = effectRun (updateInput 1
          (debounceFire (effectRun (updateInput 1 initialState "foo"))).1 "bar") :=
  supersededFetch_noop 1 50 (effectRun (updateInput 1 initialState "foo")) 0
    "foo" "bar" (FetchVal.arr ["w"]) (by decide)

/-- C7 (counterexample): the claim says a cancelled `handleSelection` makes
no state transition; but `loading := true` (with `error`/`noResults`
cleared) is set before the await, and a cancellation observed after the
await performs no reset, so a cancelled call leaves `loading = true`
although it started from `loading = false`. -/
theorem handleSelection_counterexample :
    initialState.loading = false ∧
    (handleSelectionStart true initialState).2 = some 0 ∧
    selectionResolve
        (effectRun (updateInput 1 (handleSelectionStart true initialState).1
          "ab")) 0 (SelOutcome.resolves (FetchVal.arr ["x"]))
      = effectRun (updateInput 1 (handleSelectionStart true initialState).1
          "ab") ∧
    (effectRun (updateInput 1 (handleSelectionStart true initialState).1
        "ab")).loading = true := by
  decide

/-- C7 (amended): `handleSelection(value)` with a configured `selectionFn`
makes exactly one attempt with no retry and no backoff; it first sets
`loading := true` and clears `error` and `noResults`; when the await
observes cancellation it performs no further state transition (so
`loading` stays true from that initial setup); on failure it sets the
distinct error message "Failed to fetch related suggestions", clears
suggestions and `loading`; on success it replaces the suggestion list
(coercing a non-array result to []), derives `noResults`, clears
`loading` and resets `highlight` to -1; with no `selectionFn` configured
it changes no state at all. -/
theorem handleSelection_spec :
    (∀ s : HookState, handleSelectionStart false s = (s, none)) ∧
    (∀ s : HookState,
      (handleSelectionStart true s).1 =
        { s with loading := true, error := none, noResults := false,
                 nextCtrl := s.nextCtrl + 1, abortRef := some s.nextCtrl } ∧
      (handleSelectionStart true s).2 = some s.nextCtrl) ∧
    (∀ (s : HookState) (c : Nat) (out : SelOutcome),
      c ∈ s.abortedSet → selectionResolve s c out = s) ∧
    (∀ (s : HookState) (c : Nat), c ∉ s.abortedSet →
      selectionResolve s c SelOutcome.rejects =
        { s with error := some "Failed to fetch related suggestions",
                 suggestions := [], loading := false }) ∧
    (∀ (s : HookState) (c : Nat) (v : FetchVal), c ∉ s.abortedSet →
      selectionResolve s c (SelOutcome.resolves v) =
        { s with suggestions := coerceData v,
                 noResults := (coerceData v).isEmpty,
                 loading := false, highlight := -1 }) := by
  refine ⟨fun s => rfl, fun s => ⟨rfl, rfl⟩, ?_, ?_, ?_⟩
  · exact fun s c out h => selectionResolve_of_aborted out h
  · intro s c h
    simp [selectionResolve, h]
  · intro s c v h
    simp [selectionResolve, h]

/-- Witness for the amended C7 theorem on concrete states. -/
theorem handleSelection_witness :
    selectionResolve { initialState with abortedSet := [3] } 3
        (SelOutcome.resolves (FetchVal.arr ["y"]))
      = { initialState with abortedSet := [3] } ∧
    selectionResolve initialState 0 SelOutcome.rejects =
      { initialState with
          error := some "Failed to fetch related suggestions",
          suggestions := [], loading := false } := by
  refine ⟨?_, ?_⟩
  · exact handleSelection_spec.2.2.1 { initialState with abortedSet := [3] } 3
      (SelOutcome.resolves (FetchVal.arr ["y"])) (by decide)
  · exact handleSelection_spec.2.2.2.1 initialState 0 (by decide)

/-- C3: a query whose trimmed, lower-cased form matches a cache key is
served synchronously: suggestions become the cached list and `noResults`
derives from it, no debounce timer is armed and no controller is minted
(so `fetchFn` is never invoked) and `loading` does not change; and any
state with the same cache whose lower-cased trimmed query is the same
(e.g. a differently-cased spelling of the same query) is served the same
entry. -/
theorem cacheHit_sync (s : HookState) (data : List String)
    (hq : ¬ jsTrim s.query = "")
    (hhit : cacheGet s.cache (jsToLower (jsTrim s.query)) = some data) :
    (effectRun s).suggestions = data ∧
    (effectRun s).noResults = data.isEmpty ∧
    (effectRun s).pendingTimer = none ∧
    (effectRun s).loading = s.loading ∧
    (effectRun s).nextCtrl = s.nextCtrl ∧
    (∀ t : HookState, t.cache = s.cache →
      jsToLower (jsTrim t.query) = jsToLower (jsTrim s.query) →
      ¬ jsTrim t.query = "" → (effectRun t).suggestions = data) := by
  have he := effectRun_of_hit hq hhit
  refine ⟨?_, ?_, ?_, ?_, ?_, ?_⟩
  · rw [he]
  · rw [he]
  · rw [he]
    rfl
  · rw [he]
    rfl
  · rw [he]
    rfl
  · intro t h1 h2 h3
    have hh : cacheGet t.cache (jsToLower (jsTrim t.query)) = some data := by
      rw [h1, h2]
      exact hhit
    rw [effectRun_of_hit h3 hh]

/-- Witness for C3: the query "Ab" is served from the entry stored under
the lower-cased key "ab", synchronously and with `loading` untouched. -/
theorem cacheHit_sync_witness :
    (effectRun { initialState with
                 loading := true, query := "Ab",
                 cache := [("ab", ["alpha"])] }).suggestions = ["alpha"] ∧
    (effectRun { initialState with
                 loading := true, query := "Ab",
                 cache := [("ab", ["alpha"])] }).pendingTimer = none ∧
    (effectRun { initialState with
                 loading := true, query := "Ab",
                 cache := [("ab", ["alpha"])] }).loading = true := by
  have h := cacheHit_sync { initialState with
                            loading := true, query := "Ab",
                            cache := [("ab", ["alpha"])] }
    ["alpha"] (by decide) (by decide)
  exact ⟨h.1, h.2.2.1, h.2.2.2.1⟩

/-- C9: a synchronous cache hit mutates only `suggestions` and `noResults`:
`error`, `loading`, `input`, `query`, `highlight` and the cache itself
are untouched, so after a cache hit the state can simultaneously show a
non-empty suggestion list together with a stale error or a stale
`loading = true`. -/
theorem cacheHit_frame (s : HookState) (data : List String)
    (hq : ¬ jsTrim s.query = "")
    (hhit : cacheGet s.cache (jsToLower (jsTrim s.query)) = some data) :
    (effectRun s).error = s.error ∧
    (effectRun s).loading = s.loading ∧
    (effectRun s).input = s.input ∧
    (effectRun s).query = s.query ∧
    (effectRun s).highlight = s.highlight ∧
    (effectRun s).cache = s.cache ∧
    (effectRun s).suggestions = data ∧
    (effectRun s).noResults = data.isEmpty := by
  have he := effectRun_of_hit hq hhit
  rw [he]
  exact ⟨rfl, rfl, rfl, rfl, rfl, rfl, rfl, rfl⟩

/-- Witness for C9: a cache hit performed while `loading` is still true and
an error is still displayed leaves both stale flags in place next to the
freshly served non-empty suggestion list. -/
theorem cacheHit_frame_witness :
    (effectRun { initialState with
                 loading := true, error := some "Failed to fetch",
                 query := "HELLO ",
                 cache := [("hello", ["hi"])] }).suggestions = ["hi"] ∧
    (effectRun { initialState with
                 loading := true, error := some "Failed to fetch",
                 query := "HELLO ",
                 cache := [("hello", ["hi"])] }).loading = true ∧
    (effectRun { initialState with
                 loading := true, error := some "Failed to fetch",
                 query := "HELLO ",
                 cache := [("hello", ["hi"])] }).error
      = some "Failed to fetch" := by
  have h := cacheHit_frame { initialState with
                             loading := true,
                             error := some "Failed to fetch",
                             query := "HELLO ",
                             cache := [("hello", ["hi"])] }
    ["hi"] (by decide) (by decide)
  exact ⟨h.2.2.2.2.2.2.1, h.2.1, h.1⟩

/-- C10: an input of length at least `minChars` whose trimmed form is empty
(e.g. whitespace-only): `updateInput` stores the raw untrimmed string as
the query and resets the highlight, and the query effect then stops
before the cache lookup, so no debounce timer is armed, no controller is
minted (no fetch cycle starts), and the previous suggestions,
`noResults` and `error` all remain unchanged. -/
theorem whitespaceQuery_frame (minChars : Nat) (s : HookState) (val : String)
    (hlen : minChars ≤ val.length) (htrim : jsTrim val = "") :
    (effectRun (updateInput minChars s val)).input = val ∧
    (effectRun (updateInput minChars s val)).query = val ∧
    (effectRun (updateInput minChars s val)).highlight = -1 ∧
    (effectRun (updateInput minChars s val)).suggestions = s.suggestions ∧
    (effectRun (updateInput minChars s val)).noResults = s.noResults ∧
    (effectRun (updateInput minChars s val)).error = s.error ∧
    (effectRun (updateInput minChars s val)).loading = s.loading ∧
    (effectRun (updateInput minChars s val)).pendingTimer = none ∧
    (effectRun (updateInput minChars s val)).nextCtrl = s.nextCtrl := by
  have hu := updateInput_of_ge s hlen
  have hq : jsTrim (updateInput minChars s val).query = "" := by
    rw [hu]
    exact htrim
  have he := effectRun_of_trim_empty hq
  rw [he, hu]
  exact ⟨rfl, rfl, rfl, rfl, rfl, rfl, rfl, rfl, rfl⟩

/-- Witness for C10: typing a single space over a state showing previous
suggestions and an error leaves both visible, stores the raw `" "` as
the query and arms nothing. -/
theorem whitespaceQuery_frame_witness :
    (effectRun (updateInput 1 { initialState with
                                suggestions := ["prev"],
                                error := some "E" } " ")).suggestions
      = ["prev"] ∧
    (effectRun (updateInput 1 { initialState with
                                suggestions := ["prev"],
                                error := some "E" } " ")).query = " " ∧
    (effectRun (updateInput 1 { initialState with
                                suggestions := ["prev"],
                                error := some "E" } " ")).error = some "E" ∧
    (effectRun (updateInput 1 { initialState with
                                suggestions := ["prev"],
                                error := some "E" } " ")).pendingTimer
      = none := by
  have h := whitespaceQuery_frame 1 { initialState with
                                      suggestions := ["prev"],
                                      error := some "E" }
    " " (by decide) (by decide)
  exact ⟨h.2.2.2.1, h.2.1, h.2.2.2.2.2.1, h.2.2.2.2.2.2.2.1⟩

lemma mapSet_fresh (cache : List (String × List String)) (k : String)
    (v : List String) (hfresh : ∀ e ∈ cache, e.1 ≠ k) :
    mapSet cache k v = cache ++ [(k, v)] := by
  have hany : cache.any (fun e => e.1 == k) = false := by
    rw [Bool.eq_false_iff]
    intro hc
    obtain ⟨e, he, hk⟩ := List.any_eq_true.mp hc
    exact hfresh e he (by simpa using hk)
  unfold mapSet
  rw [if_neg (by simp [hany])]

lemma cachePut_fresh_small (maxCache : Nat)
    (cache : List (String × List String)) (k : String) (v : List String)
    (hfresh : ∀ e ∈ cache, e.1 ≠ k) (hlen : cache.length < maxCache) :
    cachePut maxCache cache k v = cache ++ [(k, v)] := by
  simp only [cachePut]
  rw [mapSet_fresh cache k v hfresh]
  rw [if_neg (by simp; omega)]

lemma cachePut_fresh_full (maxCache : Nat)
    (cache : List (String × List String)) (k : String) (v : List String)
    (hfresh : ∀ e ∈ cache, e.1 ≠ k) (hlen : cache.length = maxCache) :
    cachePut maxCache cache k v = (cache ++ [(k, v)]).drop 1 := by
  simp only [cachePut]
  rw [mapSet_fresh cache k v hfresh]
  rw [if_pos (by simp; omega)]

lemma cachePut_length (maxCache : Nat)
    (cache : List (String × List String)) (k : String) (v : List String)
    (h : cache.length ≤ maxCache) :
    (cachePut maxCache cache k v).length ≤ maxCache := by
  have hm : (mapSet cache k v).length ≤ cache.length + 1 := by
    unfold mapSet
    split
    · simp
    · simp
  simp only [cachePut]
  split
  · rw [List.length_drop]
    omega
  · omega

lemma foldl_cachePut_fresh (maxCache : Nat) (v : List String) :
    ∀ (ks : List String) (cache : List (String × List String)),
      ks.Nodup → (∀ k ∈ ks, ∀ e ∈ cache, e.1 ≠ k) →
      cache.length + ks.length ≤ maxCache →
      ks.foldl (fun c k => cachePut maxCache c k v) cache
        = cache ++ ks.map (fun k => (k, v)) := by
  intro ks
  induction ks with
  | nil =>
    intro cache _ _ _
    simp
  | cons k ks ih =>
    intro cache hnd hfresh hlen
    simp only [List.foldl_cons]
    rw [cachePut_fresh_small maxCache cache k v
         (fun e he => hfresh k (by simp) e he)
         (by simp at hlen; omega)]
    have hfresh2 : ∀ k2 ∈ ks, ∀ e ∈ cache ++ [(k, v)], e.1 ≠ k2 := by
      intro k2 hk2 e he
      rcases List.mem_append.mp he with h | h
      · exact hfresh k2 (by simp [hk2]) e h
      · have hekv : e = (k, v) := by simpa using h
        subst hekv
        intro heq
        simp only at heq
        exact (List.nodup_cons.mp hnd).1 (heq ▸ hk2)
    have hlen2 : (cache ++ [(k, v)]).length + ks.length ≤ maxCache := by
      simp at hlen ⊢
      omega
    rw [ih (cache ++ [(k, v)]) (List.Nodup.of_cons hnd) hfresh2 hlen2]
    simp

lemma foldl_cachePut_fifo (maxCache : Nat) (v : List String)
    (ks : List String) (hnd : ks.Nodup) (hlen : ks.length = maxCache + 1) :
    (ks.foldl (fun c k => cachePut maxCache c k v) []).map Prod.fst
        = ks.tail ∧
    (ks.foldl (fun c k => cachePut maxCache c k v) []).length = maxCache := by
  have hne : ks ≠ [] := by
    intro h
    rw [h] at hlen
    simp at hlen
  have hdecomp := List.dropLast_append_getLast hne
  have hLlen : ks.dropLast.length = maxCache := by
    rw [List.length_dropLast, hlen]
    omega
  have hndL : ks.dropLast.Nodup := (List.dropLast_sublist ks).nodup hnd
  have hklL : ks.getLast hne ∉ ks.dropLast := by
    have h2 : (ks.dropLast ++ [ks.getLast hne]).Nodup := by
      rw [hdecomp]
      exact hnd
    intro hmem
    exact (List.nodup_append.mp h2).2.2 hmem (by simp)
  have hfold : ks.foldl (fun c k => cachePut maxCache c k v) []
      = cachePut maxCache (ks.dropLast.map (fun k => (k, v)))
          (ks.getLast hne) v := by
    conv_lhs => rw [← hdecomp]
    rw [List.foldl_append,
        foldl_cachePut_fresh maxCache v ks.dropLast [] hndL (by simp)
          (by simp; omega)]
    simp
  have hfreshL : ∀ e ∈ ks.dropLast.map (fun k => (k, v)),
      e.1 ≠ ks.getLast hne := by
    intro e he
    obtain ⟨k2, hk2, hek⟩ := List.mem_map.mp he
    subst hek
    intro heq
    simp only at heq
    exact hklL (heq ▸ hk2)
  have hput := cachePut_fresh_full maxCache
    (ks.dropLast.map (fun k => (k, v))) (ks.getLast hne) v hfreshL
    (by simp; omega)
  constructor
  · rw [hfold, hput]
    have hmap : (ks.dropLast.map (fun k => (k, v)) ++
        [(ks.getLast hne, v)]).map Prod.fst
          = ks.dropLast ++ [ks.getLast hne] := by
      rw [List.map_append, List.map_map]
      rw [show (Prod.fst ∘ fun k : String => (k, v)) = id from rfl,
          List.map_id]
      simp
    rw [List.map_drop, hmap, List.drop_one, hdecomp]
  · rw [hfold, hput]
    simp
    omega

/-- C4: the cache is bounded: a `cachePut` on a cache holding at most
`maxCache` entries leaves at most `maxCache` entries (also along the
hook's success path `fetchSuccess`); a cache hit leaves the cache
unmodified (insertion order is never promoted by a read); and inserting
`maxCache + 1` distinct keys into an empty cache leaves exactly
`maxCache` entries, with exactly the first-inserted key evicted and all
others retained in insertion order. -/
theorem cacheBound_spec (maxCache : Nat) :
    (∀ (cache : List (String × List String)) (k : String)
        (v : List String), cache.length ≤ maxCache →
      (cachePut maxCache cache k v).length ≤ maxCache) ∧
    (∀ (s : HookState) (data : List String), ¬ jsTrim s.query = "" →
      cacheGet s.cache (jsToLower (jsTrim s.query)) = some data →
      (effectRun s).cache = s.cache) ∧
    (∀ (s : HookState) (c : Nat) (q : String) (v : FetchVal),
      s.cache.length ≤ maxCache →
      ((fetchSuccess maxCache s c q v).cache).length ≤ maxCache) ∧
    (∀ (ks : List String) (v : List String), ks.Nodup →
      ks.length = maxCache + 1 →
      (ks.foldl (fun c k => cachePut maxCache c k v) []).map Prod.fst
          = ks.tail ∧
      (ks.foldl (fun c k => cachePut maxCache c k v) []).length
          = maxCache) := by
  refine ⟨?_, ?_, ?_, ?_⟩
  · exact fun cache k v h => cachePut_length maxCache cache k v h
  · intro s data hq hhit
    rw [effectRun_of_hit hq hhit]
    rfl
  · intro s c q v h
    unfold fetchSuccess
    split
    · exact h
    · exact cachePut_length maxCache s.cache (jsToLower q) (coerceData v) h
  · exact fun ks v hnd hlen => foldl_cachePut_fifo maxCache v ks hnd hlen

/-- Witness for C4 with `maxCache = 2`: inserting the three distinct keys
"a", "b", "c" leaves exactly the two entries "b", "c". -/
theorem cacheBound_witness :
    (["a", "b", "c"].foldl (fun c k => cachePut 2 c k ["v"]) []).map Prod.fst
        = ["b", "c"] ∧
    (["a", "b", "c"].foldl (fun c k => cachePut 2 c k ["v"]) []).length
        = 2 :=
  (cacheBound_spec 2).2.2.2 ["a", "b", "c"] ["v"] (by decide) (by decide)

/-- C5: the retry loop makes at most `maxAttempts` fetch calls; a
non-cancellation failure on attempt `i` with `i + 1 < maxAttempts` is
followed by a backoff wait of `backoffBase * (i + 1)` before the next
attempt (linear backoff); and when every attempt fails without
cancellation, the loop ends with `error` set to the generic message
"Failed to fetch", `suggestions = []` and `loading = false`, having made
exactly `maxAttempts` calls and waited `backoffBase * (i + 1)` after
each non-final attempt `i`. -/
theorem retryLoop_spec (maxAttempts backoffBase maxCache : Nat)
    (env : Nat → AttemptOutcome) (q : String) (s : HookState) :
    (runFetchLoop maxAttempts backoffBase maxCache env q s).calls
        ≤ maxAttempts ∧
    (∀ (fuel attempt : Nat) (s0 : HookState) (ws : List Nat) (n : Nat),
      env attempt = AttemptOutcome.rejects false →
      attempt + 1 < maxAttempts →
      runAttempts maxAttempts backoffBase maxCache env q (fuel + 1) attempt
          s0 ws n
        = runAttempts maxAttempts backoffBase maxCache env q fuel
            (attempt + 1) s0 (ws ++ [backoffBase * (attempt + 1)]) (n + 1)) ∧
    (1 ≤ maxAttempts →
      (∀ i, i < maxAttempts → env i = AttemptOutcome.rejects false) →
      runFetchLoop maxAttempts backoffBase maxCache env q s
        = ⟨failState s,
           (List.range (maxAttempts - 1)).map
             (fun i => backoffBase * (i + 1)),
           maxAttempts⟩) := by
  refine ⟨?_, ?_, ?_⟩
  · simpa [runFetchLoop] using
      runAttempts_callsLe maxAttempts backoffBase maxCache env q maxAttempts
        0 s [] 0
  · intro fuel attempt s0 ws n henv hlt
    simp only [runAttempts, henv]
    rw [if_neg Bool.false_ne_true, if_neg (by omega)]
  · intro h1 hall
    have hrun := runAttempts_allFail maxAttempts backoffBase maxCache env q
      maxAttempts 0 s [] 0 h1 (by omega) (fun i hi1 hi2 => hall i hi2)
    simp only [runFetchLoop]
    rw [hrun]
    simp [List.range_eq_range']

/-- Witness for C5 at the hook's hard-coded configuration (2 attempts, base
150 ms): an always-failing fetch ends in the generic error state after
exactly two calls and one 150 ms backoff wait. -/
theorem retryLoop_witness :
    runFetchLoop 2 150 50 (fun _ => AttemptOutcome.rejects false) "q"
        initialState
      = ⟨failState initialState,
         (List.range 1).map (fun i => 150 * (i + 1)), 2⟩ :=
  (retryLoop_spec 2 150 50 (fun _ => AttemptOutcome.rejects false) "q"
    initialState).2.2 (by omega) (fun i hi => rfl)
